import Mathlib

/-!
Verification of the natural-language specification of `ios-extract.py`
against a shallow embedding of the program.

The program reconstructs a logical view of an iOS device backup: it loads
the backup's manifest catalog, derives physical blob locations from content
ids, materializes blobs into a local scratch area, and runs relational
extraction pipelines (contacts, messages, app data) over nested SQLite
databases.  The embedding below translates the relevant Python functions
into pure Lean functions: the filesystem scratch area becomes an explicit
state value, Python exceptions become an error type threaded through
`Except` / explicit error fields, SQLite query results become lists of
typed records, and Python dicts built by key become association lookups
with last-write-wins semantics.
-/

namespace IosExtract

/-- The exception classes raised by the program.  `invalidBackup`,
`applicationNotFound`, `fileNotFound` and `contactsNotDefined` embed the
four classes defined at the top of the source; `plistError` models the
exception raised by the standard library plist parser on unparseable
input (a distinct class not defined by this program); `keyError` models
Python's built-in KeyError raised by a failed dict subscript. -/
inductive PyError where
  | invalidBackup
  | applicationNotFound
  | fileNotFound
  | contactsNotDefined
  | plistError
  | keyError
deriving DecidableEq

/-- Model of the local scratch filesystem: the set of paths that currently
exist under /tmp. -/
structure FsState where
  tmpFiles : List String
deriving DecidableEq

/-- Python `dst_path or src_path`: a falsy left operand (None or the empty
string) selects the right operand. -/
def pyOr (a : Option String) (b : String) : String :=
  match a with
  | none => b
  | some "" => b
  | some s => s

/-- The scratch path `f"/tmp/{id}/{dst_path}"` built by `make_temporary_copy`. -/
def tmpPath (id dst : String) : String :=
  "/tmp/" ++ id ++ "/" ++ dst

/-- Embeds `make_temporary_copy` (source lines 96-107).  Returns the new
filesystem state, the scratch path, and whether the underlying copy was
performed (`shutil.copy2` ran) on this call. -/
def make_temporary_copy (st : FsState) (id src_path : String) (dst_path : Option String) :
    FsState × String × Bool :=
  let dst := pyOr dst_path src_path
  if st.tmpFiles.contains (tmpPath id dst) then
    (st, tmpPath id dst, false)
  else
    (⟨tmpPath id dst :: st.tmpFiles⟩, tmpPath id dst, true)

/-- Boolean test that `p` is a leading substring of `s` (Python `startswith`). -/
def startsWithS (s p : String) : Bool :=
  p.toList.isPrefixOf s.toList

/-- Boolean test that `p` is a trailing substring of `s` (Python `endswith`). -/
def endsWithS (s p : String) : Bool :=
  p.toList.isSuffixOf s.toList

/-- Embeds Python `os.path.join` for two components: an absolute second
component replaces the first; otherwise the separator is inserted unless
the first component is empty or already ends with the separator. -/
def osPathJoin (a b : String) : String :=
  if startsWithS b "/" then b
  else if a == "" || endsWithS a "/" then a ++ b
  else a ++ "/" ++ b

/-- Python string slice `s[:n]`. -/
def pyTake (s : String) (n : Nat) : String :=
  String.mk (s.toList.take n)

/-- Embeds `IOSBackupFile.__init__` line 250:
`self.real_path = os.path.join(self.backup.path, self.id[:2], self.id)`.
A pure derivation: no filesystem access is modelled because the source
performs none at this point. -/
def real_path (backupPath id : String) : String :=
  osPathJoin (osPathJoin backupPath (pyTake id 2)) id

/-! ### Phone numbers

`parse_phone_number` calls the third-party `phonenumbers` library, whose
code is not part of this repository.  The library call is therefore kept
abstract (a parameter of the embedding) where possible; a concrete model
of the library, built from the specification's description of its
behavior, is provided further below for the claims that depend on it. -/

/-- The value returned by the external library's parse call: a country
code and a national number, both numeric. -/
structure ParsedPhone where
  country_code : Nat
  national_number : Nat
deriving DecidableEq

/-- Little-endian decimal digit characters of `n`, with explicit fuel so
that the definition is structural and kernel-evaluable. -/
def natDigitsRevFuel : Nat → Nat → List Char
  | 0, _ => []
  | fuel + 1, n => if n = 0 then [] else Char.ofNat (48 + n % 10) :: natDigitsRevFuel fuel (n / 10)

/-- Decimal rendering of a natural number, as Python `str` renders a
non-negative int (no leading zeros; zero renders as "0"). -/
def natToDigitChars (n : Nat) : List Char :=
  if n = 0 then ['0'] else (natDigitsRevFuel (n + 1) n).reverse

/-- Numeric value of a big-endian list of decimal digit characters. -/
def natFromDigits (ds : List Char) : Nat :=
  ds.foldl (fun a c => 10 * a + (c.toNat - 48)) 0

/-- Embeds the f-string `f"+{parsed.country_code}{parsed.national_number}"`
(source line 55). -/
def formatPhone (p : ParsedPhone) : String :=
  String.mk ('+' :: (natToDigitChars p.country_code ++ natToDigitChars p.national_number))

/-- Embeds `parse_phone_number` (source lines 52-57).  The external call
`phonenumbers.parse(input, "US")` is the parameter `lib`; the library
signals parse failure by an exception which the source catches and turns
into `None`, embedded here as `Option`. -/
def parse_phone_number (lib : String → Option ParsedPhone) (input : String) : Option String :=
  (lib input).map formatPhone

/-- Modelled from the spec: the country-code prefix table used by the
external `phonenumbers` library (the library itself is not part of this
repository).  International country calling codes form a prefix-free set;
a representative subset suffices for the model. -/
def countryCodeTable : List (List Char) :=
  [['1'], ['7'], ['3', '3'], ['4', '4'], ['4', '9'], ['8', '1'], ['8', '6'], ['9', '1'],
   ['3', '5', '3'], ['9', '7', '2']]

/-- Modelled from the spec: the external `phonenumbers` library's parse
against default region "US".  A string starting with '+' is parsed by
splitting a known country code off its digits (formatting characters are
ignored); other strings are parsed as national numbers of the default
region when they contain a plausible number of digits. -/
def phonenumbersParse (input : String) : Option ParsedPhone :=
  match input.toList with
  | [] => none
  | c :: rest =>
    if c = '+' then
      let ds := rest.filter Char.isDigit
      countryCodeTable.findSome? (fun cc =>
        if cc.isPrefixOf ds ∧ cc ≠ ds then
          some ⟨natFromDigits cc, natFromDigits (ds.drop cc.length)⟩
        else none)
    else
      let ds := (c :: rest).filter Char.isDigit
      if ds.length = 10 ∨ ds.length = 7 then some ⟨1, natFromDigits ds⟩ else none

/-! ### Helper lemmas -/

theorem isPrefixOf_slash_false_head {l : List Char} {c : Char} (h : c ≠ '/') :
    (['/'].isPrefixOf (c :: l)) = false := by
  have hc : ('/' == c) = false := beq_eq_false_iff_ne.mpr (fun he => h he.symm)
  show (('/' == c) && (([] : List Char).isPrefixOf l)) = false
  rw [hc]
  rfl

theorem isPrefixOf_slash_false {l : List Char} (h : ∀ c ∈ l, c ≠ '/') :
    (['/'].isPrefixOf l) = false := by
  cases l with
  | nil => rfl
  | cons c cs => exact isPrefixOf_slash_false_head (h c (List.mem_cons_self c cs))

theorem osPathJoin_eq {a b : String} (hb : startsWithS b "/" = false) (ha : a ≠ "")
    (ha2 : endsWithS a "/" = false) :
    osPathJoin a b = a ++ "/" ++ b := by
  have ha' : (a == "") = false := beq_eq_false_iff_ne.mpr ha
  simp [osPathJoin, hb, ha', ha2]

theorem append_slash_ne_empty (x y : String) : x ++ "/" ++ y ≠ "" := by
  intro h
  have h2 : (x ++ "/" ++ y).data = ("" : String).data := congrArg String.data h
  rw [String.data_append, String.data_append] at h2
  have hm : '/' ∈ ("" : String).data := by
    rw [← h2]
    exact List.mem_append.mpr (Or.inl (List.mem_append.mpr (Or.inr (List.mem_singleton.mpr rfl))))
  exact List.not_mem_nil '/' hm

/-- C4: `real_path` is a pure deterministic derivation of the physical
location: for every backup root and content id (a nonempty id containing
no path separator, under a nonempty root not ending in the separator),
the derived path equals `<root>/<first two characters of id>/<id>`, the
portion after the root begins with the first two characters of the id,
and equal ids give equal paths.  No filesystem check occurs: the
embedding is a pure function of its string arguments, exactly as the
source assigns `self.real_path` without any `os.path.exists` call. -/
theorem real_path_spec (root id : String) (hroot : root ≠ "")
    (hre : endsWithS root "/" = false) (hid : id ≠ "")
    (hsl : ∀ c ∈ id.toList, c ≠ '/') :
    real_path root id = root ++ "/" ++ pyTake id 2 ++ "/" ++ id
    ∧ (∃ rest : String, real_path root id = (root ++ "/" ++ pyTake id 2) ++ rest)
    ∧ (∀ id2 : String, id2 = id → real_path root id2 = real_path root id) := by
  obtain ⟨c₀, cs, hd⟩ : ∃ c₀ cs, id.data = c₀ :: cs := by
    cases hdata : id.data with
    | nil => exact absurd (String.ext hdata) hid
    | cons a l => exact ⟨a, l, rfl⟩
  have hb1 : startsWithS (pyTake id 2) "/" = false := by
    show (['/'].isPrefixOf (id.data.take 2)) = false
    exact isPrefixOf_slash_false (fun c hc => hsl c (List.take_subset 2 id.data hc))
  have hb2 : startsWithS id "/" = false := by
    show (['/'].isPrefixOf id.data) = false
    exact isPrefixOf_slash_false hsl
  have j1 : osPathJoin root (pyTake id 2) = root ++ "/" ++ pyTake id 2 :=
    osPathJoin_eq hb1 hroot hre
  have hne : root ++ "/" ++ pyTake id 2 ≠ "" := append_slash_ne_empty root (pyTake id 2)
  have he2 : endsWithS (root ++ "/" ++ pyTake id 2) "/" = false := by
    show ((['/'].reverse).isPrefixOf ((root ++ "/" ++ pyTake id 2).data.reverse)) = false
    rw [String.data_append, String.data_append, List.reverse_append]
    have hpt : (pyTake id 2).data = id.data.take 2 := rfl
    cases cs with
    | nil =>
      have h1 : (pyTake id 2).data = [c₀] := by rw [hpt, hd]; rfl
      rw [h1]
      exact isPrefixOf_slash_false_head (hsl c₀ (by rw [show id.toList = id.data from rfl, hd]; exact List.mem_cons_self c₀ []))
    | cons c₁ cs' =>
      have h1 : (pyTake id 2).data = [c₀, c₁] := by rw [hpt, hd]; rfl
      rw [h1]
      exact isPrefixOf_slash_false_head (hsl c₁ (by rw [show id.toList = id.data from rfl, hd]; exact List.mem_cons_of_mem c₀ (List.mem_cons_self c₁ cs')))
  have j2 : osPathJoin (root ++ "/" ++ pyTake id 2) id = (root ++ "/" ++ pyTake id 2) ++ "/" ++ id :=
    osPathJoin_eq hb2 hne he2
  have hmain : real_path root id = root ++ "/" ++ pyTake id 2 ++ "/" ++ id := by
    rw [real_path, j1, j2]
  refine ⟨hmain, ⟨"/" ++ id, ?_⟩, fun id2 h2 => by rw [h2]⟩
  rw [hmain, String.append_assoc]

/-- Witness for C4: a concrete root and content id. -/
theorem real_path_spec_witness :
    real_path "/backups/X" "ab12cd" = "/backups/X" ++ "/" ++ pyTake "ab12cd" 2 ++ "/" ++ "ab12cd"
    ∧ real_path "/backups/X" "ab12cd" = "/backups/X/ab/ab12cd" :=
  ⟨(real_path_spec "/backups/X" "ab12cd" (by decide) (by decide) (by decide) (by decide)).1,
   by decide⟩

/-- C5: `make_temporary_copy` is idempotent: calling it twice with the same
scope key, source path and logical name returns the same scratch path both
times, the second call performs no copy and leaves the filesystem state
unchanged, and across the two calls the underlying copy runs at most once. -/
theorem make_temporary_copy_idempotent (st : FsState) (id src : String) (dst : Option String) :
    (make_temporary_copy (make_temporary_copy st id src dst).1 id src dst).2.1
      = (make_temporary_copy st id src dst).2.1
    ∧ (make_temporary_copy (make_temporary_copy st id src dst).1 id src dst).2.2 = false
    ∧ (make_temporary_copy (make_temporary_copy st id src dst).1 id src dst).1
      = (make_temporary_copy st id src dst).1
    ∧ ((if (make_temporary_copy st id src dst).2.2 then 1 else 0)
        + (if (make_temporary_copy (make_temporary_copy st id src dst).1 id src dst).2.2 then 1 else 0)
        : Nat) ≤ 1 := by
  by_cases h : tmpPath id (pyOr dst src) ∈ st.tmpFiles
  · simp [make_temporary_copy, h]
  · simp [make_temporary_copy, h]

/-- C10: `parse_phone_number` is total: whatever the library call returns,
the function either returns the canonical `+<country code><national number>`
rendering or `none`; the embedding returns a value on every input (the
source catches the library's parse exception, the only exception the
library raises, and returns `None`). -/
theorem parse_phone_number_total (lib : String → Option ParsedPhone) (input : String) :
    parse_phone_number lib input = none
    ∨ ∃ p : ParsedPhone, parse_phone_number lib input = some (formatPhone p) := by
  unfold parse_phone_number
  cases lib input with
  | none => exact Or.inl rfl
  | some p => exact Or.inr ⟨p, rfl⟩

/-! ### Manifest lookup (Identity Index) -/

/-- One row of the manifest catalog's Files table. -/
structure FileRow where
  domain : String
  relativePath : String
  fileID : String
deriving DecidableEq

/-- The logical file record constructed by a successful lookup
(`IOSBackupFile` identity: domain, relative path, content id). -/
structure FileRecord where
  domain : String
  path : String
  id : String
deriving DecidableEq

/-- Embeds `IOSBackup.file` (source lines 140-157): the exact-match query
over the Files table; any result count other than one raises
FileNotFoundException (the source has no separate ambiguity error). -/
def IOSBackup.file (manifest : List FileRow) (domain path : String) : Except PyError FileRecord :=
  match manifest.filter (fun r => r.domain == domain && r.relativePath == path) with
  | [r] => Except.ok ⟨domain, path, r.fileID⟩
  | _ => Except.error PyError.fileNotFound

/-- C2 (amended): an exact-match lookup that matches exactly one manifest
row returns that row's record; any other match count (zero or several)
fails with the one FileNotFound error the code has. -/
theorem IOSBackup_file_spec (manifest : List FileRow) (domain path : String) :
    (∀ rec : FileRow,
        manifest.filter (fun r => r.domain == domain && r.relativePath == path) = [rec] →
        IOSBackup.file manifest domain path = Except.ok ⟨domain, path, rec.fileID⟩)
    ∧ ((manifest.filter (fun r => r.domain == domain && r.relativePath == path)).length ≠ 1 →
        IOSBackup.file manifest domain path = Except.error PyError.fileNotFound) := by
  constructor
  · intro rec hfil
    unfold IOSBackup.file
    rw [hfil]
  · intro hlen
    unfold IOSBackup.file
    cases hfil : manifest.filter (fun r => r.domain == domain && r.relativePath == path) with
    | nil => rfl
    | cons x t =>
      cases t with
      | nil => exact absurd (by rw [hfil]; rfl) hlen
      | cons y t' => rfl

/-- The manifest row used in the C2 scenario. -/
def sampleRow : FileRow := ⟨"HomeDomain", "a/b.db", "abcd1234"⟩

/-- C2 counterexample: with two rows matching the same (domain, path), the
lookup fails with exactly the same FileNotFound error as a zero-row match;
there is no distinct AmbiguousFile error in the code. -/
theorem IOSBackup_file_ambiguous_counterexample :
    IOSBackup.file [sampleRow, sampleRow] "HomeDomain" "a/b.db" = Except.error PyError.fileNotFound
    ∧ IOSBackup.file [] "HomeDomain" "a/b.db" = Except.error PyError.fileNotFound :=
  ⟨rfl, rfl⟩

/-- Witness for C2 (amended): a single matching row is returned. -/
theorem IOSBackup_file_spec_witness :
    IOSBackup.file [sampleRow] "HomeDomain" "a/b.db"
      = Except.ok ⟨"HomeDomain", "a/b.db", "abcd1234"⟩ :=
  (IOSBackup_file_spec [sampleRow] "HomeDomain" "a/b.db").1 sampleRow (by decide)

/-! ### Backup construction and the scan loop -/

/-- The metadata fields of Info.plist that the embedding needs.  The
source's `__getitem__` returns None for a missing key, hence the Option. -/
structure InfoPlist where
  uniqueIdentifier : Option String
  applications : List String
deriving DecidableEq

/-- The state of the top-level metadata descriptor (Info.plist) in a
candidate backup directory. -/
inductive PlistData where
  | absent
  | unparseable
  | valid (info : InfoPlist)
deriving DecidableEq

/-- A candidate backup directory: its Info.plist state and the rows of its
Manifest.db. -/
structure BackupDirData where
  info : PlistData
  manifest : List FileRow
deriving DecidableEq

/-- A successfully constructed backup handle. -/
structure IOSBackupS where
  path : String
  info : InfoPlist
  id : Option String
  manifest_temp_path : String
  manifest : List FileRow
deriving DecidableEq

/-- Embeds `IOSBackup.__init__` (source lines 111-128): a missing
Info.plist raises InvalidBackupException; a present but unparseable one
makes `plistlib.load` raise the plist parser's own exception (modelled as
`plistError`), which `__init__` does not catch; otherwise the backup id is
read (None when the key is absent) and Manifest.db is copied to scratch. -/
def IOSBackup.init (st : FsState) (path : String) (dir : BackupDirData) :
    Except PyError (FsState × IOSBackupS) :=
  match dir.info with
  | PlistData.absent => Except.error PyError.invalidBackup
  | PlistData.unparseable => Except.error PyError.plistError
  | PlistData.valid info =>
    let idStr := match info.uniqueIdentifier with
      | some s => s
      | none => "None"
    let r := make_temporary_copy st idStr (osPathJoin path "Manifest.db") (some "Manifest.db")
    Except.ok (r.1, ⟨path, info, info.uniqueIdentifier, r.2.1, dir.manifest⟩)

/-- Embeds the scan loop (source lines 620-626) over the candidate
directories of one backup root: a construction failure of class
InvalidBackupException is caught, the directory is skipped and scanning
continues; any other exception propagates and aborts the whole run.  (The
per-backup pipeline dispatch that follows a successful construction is
modelled separately by `caughtAtDispatch`.) -/
def scanLoop (st : FsState) (root : String) :
    List (String × BackupDirData) → Except PyError (FsState × List IOSBackupS)
  | [] => Except.ok (st, [])
  | (name, dir) :: rest =>
    match IOSBackup.init st (osPathJoin root name) dir with
    | Except.error PyError.invalidBackup => scanLoop st root rest
    | Except.error e => Except.error e
    | Except.ok (st', b) => (scanLoop st' root rest).map (fun r => (r.1, b :: r.2))

/-- Embeds the per-backup pipeline dispatch (source lines 628-633): each
pipeline runs under a try that catches only ApplicationNotFoundException
(logged, loop continues); any other exception propagates uncaught. -/
def caughtAtDispatch : PyError → Bool
  | PyError.applicationNotFound => true
  | _ => false

/-- A well-formed backup directory used in scan scenarios. -/
def goodDir : BackupDirData := ⟨PlistData.valid ⟨some "ID1", []⟩, []⟩

/-- A backup directory whose Info.plist is present but unparseable. -/
def badPlistDir : BackupDirData := ⟨PlistData.unparseable, []⟩

/-- C3 counterexample: a present-but-unparseable metadata descriptor does
not produce InvalidBackup: construction fails with the plist parser's own
error, which the scan loop does not catch, so the whole run aborts
(the well-formed directory after it is never scanned) instead of skipping
the candidate and continuing. -/
theorem scan_unparseable_counterexample :
    IOSBackup.init ⟨[]⟩ "/r/a" badPlistDir = Except.error PyError.plistError
    ∧ PyError.plistError ≠ PyError.invalidBackup
    ∧ scanLoop ⟨[]⟩ "/r" [("a", badPlistDir), ("b", goodDir)] = Except.error PyError.plistError :=
  ⟨rfl, by decide, rfl⟩

/-- C3 (amended): construction fails with InvalidBackup when the metadata
descriptor is absent, and the scan loop then skips the candidate directory
and continues with the rest; when the descriptor is present but
unparseable, construction fails with the plist parser's own error instead,
which the scan loop does not catch, so the run aborts. -/
theorem IOSBackup_init_scan_spec (st : FsState) (root name p : String)
    (rest : List (String × BackupDirData)) (dir : BackupDirData) :
    (dir.info = PlistData.absent →
      IOSBackup.init st p dir = Except.error PyError.invalidBackup
      ∧ scanLoop st root ((name, dir) :: rest) = scanLoop st root rest)
    ∧ (dir.info = PlistData.unparseable →
      IOSBackup.init st p dir = Except.error PyError.plistError
      ∧ scanLoop st root ((name, dir) :: rest) = Except.error PyError.plistError) := by
  constructor
  · intro h
    have h1 : IOSBackup.init st (osPathJoin root name) dir = Except.error PyError.invalidBackup := by
      unfold IOSBackup.init
      rw [h]
    have h2 : IOSBackup.init st p dir = Except.error PyError.invalidBackup := by
      unfold IOSBackup.init
      rw [h]
    refine ⟨h2, ?_⟩
    simp only [scanLoop]
    rw [h1]
  · intro h
    have h1 : IOSBackup.init st (osPathJoin root name) dir = Except.error PyError.plistError := by
      unfold IOSBackup.init
      rw [h]
    have h2 : IOSBackup.init st p dir = Except.error PyError.plistError := by
      unfold IOSBackup.init
      rw [h]
    refine ⟨h2, ?_⟩
    simp only [scanLoop]
    rw [h1]

/-- Witness for C3 (amended): a concrete directory with a missing
descriptor is skipped and the scan continues. -/
theorem IOSBackup_init_scan_spec_witness :
    IOSBackup.init ⟨[]⟩ "/r/a" ⟨PlistData.absent, []⟩ = Except.error PyError.invalidBackup
    ∧ scanLoop ⟨[]⟩ "/r" [("a", ⟨PlistData.absent, []⟩), ("b", goodDir)]
        = scanLoop ⟨[]⟩ "/r" [("b", goodDir)] :=
  (IOSBackup_init_scan_spec ⟨[]⟩ "/r" "a" "/r/a" [("b", goodDir)] ⟨PlistData.absent, []⟩).1 rfl

/-! ### Contacts pipeline: classification of contact values -/

/-- The string tags used for contact kinds in `backup_contacts`. -/
inductive ContactType where
  | email
  | shortcode
  | phone
  | unknown
deriving DecidableEq

/-- Python `str.isdigit`: true iff the string is nonempty and every
character is a digit (ASCII model). -/
def pyIsDigit (s : String) : Bool :=
  !s.toList.isEmpty && s.toList.all Char.isDigit

/-- Embeds the classification of one contact value (source lines 450-458):
contains "@" gives email; all-digit of length at most six gives shortcode;
a parseable phone number is replaced by its canonical form; anything else
is unknown, passed through unchanged. -/
def classifyContact (lib : String → Option ParsedPhone) (contact : String) :
    ContactType × String :=
  if contact.toList.contains '@' then (ContactType.email, contact)
  else if pyIsDigit contact ∧ contact.toList.length ≤ 6 then (ContactType.shortcode, contact)
  else match parse_phone_number lib contact with
    | some phone => (ContactType.phone, phone)
    | none => (ContactType.unknown, contact)

/-- Embeds the per-row handling of the ABMultiValue loop (source lines
443-462): a falsy value (SQL NULL or the empty string) is skipped entirely
(`if not contact: continue`) before any classification happens. -/
def processContactValue (lib : String → Option ParsedPhone) (value : Option String) :
    Option (ContactType × String) :=
  match value with
  | none => none
  | some contact => if contact = "" then none else some (classifyContact lib contact)

/-- C6 counterexample: an empty raw contact string is not classified as
unknown and passed through, as the claim's catch-all requires; it is
skipped entirely before classification. -/
theorem processContactValue_empty_counterexample :
    processContactValue phonenumbersParse (some "") = none
    ∧ processContactValue phonenumbersParse (some "") ≠ some (ContactType.unknown, "") :=
  ⟨rfl, by decide⟩

/-- C6 (amended): every nonempty raw contact string is classified in
order: containing "@" gives email; otherwise all-digit of at most six
digits gives shortcode; otherwise parseable as a phone number gives phone
with the contact replaced by its canonical form; otherwise unknown, passed
through unchanged.  Empty or NULL contact values are skipped entirely. -/
theorem contact_classification_spec (lib : String → Option ParsedPhone) (contact : String)
    (hne : contact ≠ "") :
    (contact.toList.contains '@' = true →
      processContactValue lib (some contact) = some (ContactType.email, contact))
    ∧ (contact.toList.contains '@' = false →
       (pyIsDigit contact ∧ contact.toList.length ≤ 6) →
      processContactValue lib (some contact) = some (ContactType.shortcode, contact))
    ∧ (∀ ph : String, contact.toList.contains '@' = false →
       ¬(pyIsDigit contact ∧ contact.toList.length ≤ 6) →
       parse_phone_number lib contact = some ph →
      processContactValue lib (some contact) = some (ContactType.phone, ph))
    ∧ (contact.toList.contains '@' = false →
       ¬(pyIsDigit contact ∧ contact.toList.length ≤ 6) →
       parse_phone_number lib contact = none →
      processContactValue lib (some contact) = some (ContactType.unknown, contact)) := by
  have hpv : processContactValue lib (some contact) = some (classifyContact lib contact) := by
    simp [processContactValue, hne]
  refine ⟨?_, ?_, ?_, ?_⟩
  · intro hat
    rw [hpv]
    unfold classifyContact
    rw [if_pos hat]
  · intro hat hsc
    rw [hpv]
    unfold classifyContact
    rw [if_neg (by rw [hat]; exact Bool.false_ne_true), if_pos hsc]
  · intro ph hat hsc hph
    rw [hpv]
    unfold classifyContact
    rw [if_neg (by rw [hat]; exact Bool.false_ne_true), if_neg hsc, hph]
  · intro hat hsc hph
    rw [hpv]
    unfold classifyContact
    rw [if_neg (by rw [hat]; exact Bool.false_ne_true), if_neg hsc, hph]

/-- Witness for C6 (amended): a concrete address containing "@". -/
theorem contact_classification_spec_witness :
    processContactValue phonenumbersParse (some "a@b.com")
      = some (ContactType.email, "a@b.com") :=
  (contact_classification_spec phonenumbersParse "a@b.com" (by decide)).1 (by decide)

/-! ### Idempotence of phone normalization over the library model -/

theorem toNat_ofNat_digit (d : Nat) (h : d < 10) : (Char.ofNat (48 + d)).toNat = 48 + d := by
  interval_cases d <;> decide

theorem natDigitsRevFuel_isDigit (fuel : Nat) :
    ∀ n, ∀ c ∈ natDigitsRevFuel fuel n, c.isDigit = true := by
  induction fuel with
  | zero => intro n c hc; cases hc
  | succ fuel ih =>
    intro n c hc
    unfold natDigitsRevFuel at hc
    by_cases h0 : n = 0
    · rw [if_pos h0] at hc
      cases hc
    · rw [if_neg h0] at hc
      cases hc with
      | head =>
        have hlt : n % 10 < 10 := Nat.mod_lt n (by norm_num)
        generalize hd : n % 10 = d at hlt
        interval_cases d <;> decide
      | tail _ htail => exact ih (n / 10) c htail

theorem natFromDigits_rev_eq_foldr (l : List Char) :
    natFromDigits l.reverse = l.foldr (fun c a => 10 * a + (c.toNat - 48)) 0 := by
  rw [natFromDigits, List.foldl_reverse]

theorem natFromDigits_natDigitsRevFuel (fuel : Nat) :
    ∀ n, n ≤ fuel → natFromDigits ((natDigitsRevFuel fuel n).reverse) = n := by
  induction fuel with
  | zero =>
    intro n hn
    interval_cases n
    rfl
  | succ fuel ih =>
    intro n hn
    rw [natFromDigits_rev_eq_foldr]
    unfold natDigitsRevFuel
    by_cases h0 : n = 0
    · rw [if_pos h0, h0]
      rfl
    · rw [if_neg h0]
      have hdiv : n / 10 ≤ fuel := by
        have h1 : n / 10 < n := Nat.div_lt_self (Nat.pos_of_ne_zero h0) (by norm_num)
        omega
      have hrec := ih (n / 10) hdiv
      rw [natFromDigits_rev_eq_foldr] at hrec
      show 10 * ((natDigitsRevFuel fuel (n / 10)).foldr (fun c a => 10 * a + (c.toNat - 48)) 0)
          + ((Char.ofNat (48 + n % 10)).toNat - 48) = n
      rw [hrec, toNat_ofNat_digit (n % 10) (Nat.mod_lt n (by norm_num))]
      omega

theorem natFromDigits_natToDigitChars (n : Nat) :
    natFromDigits (natToDigitChars n) = n := by
  unfold natToDigitChars
  by_cases h0 : n = 0
  · rw [if_pos h0, h0]
    rfl
  · rw [if_neg h0]
    exact natFromDigits_natDigitsRevFuel (n + 1) n (Nat.le_succ n)

theorem natToDigitChars_ne_nil (n : Nat) : natToDigitChars n ≠ [] := by
  unfold natToDigitChars
  by_cases h0 : n = 0
  · rw [if_pos h0]
    exact List.cons_ne_nil '0' []
  · rw [if_neg h0]
    unfold natDigitsRevFuel
    rw [if_neg h0]
    simp

theorem natToDigitChars_isDigit (n : Nat) : ∀ c ∈ natToDigitChars n, c.isDigit = true := by
  unfold natToDigitChars
  by_cases h0 : n = 0
  · rw [if_pos h0]
    intro c hc
    cases hc with
    | head => decide
    | tail _ h => cases h
  · rw [if_neg h0]
    intro c hc
    exact natDigitsRevFuel_isDigit (n + 1) n c (List.mem_reverse.mp hc)

/-- The relation making a set of country codes unambiguous to split off. -/
def PairwisePrefixFree (l : List (List Char)) : Prop :=
  l.Pairwise (fun a b => ¬ a <+: b ∧ ¬ b <+: a)

theorem countryCodeTable_prefixFree : PairwisePrefixFree countryCodeTable := by
  unfold PairwisePrefixFree countryCodeTable
  decide

theorem findSome?_eq_of_unique {α β : Type} {l : List α} {f : α → Option β} {a : α} {b : β}
    (ha : a ∈ l) (hfa : f a = some b) (hu : ∀ x ∈ l, x ≠ a → f x = none) :
    l.findSome? f = some b := by
  induction l with
  | nil => cases ha
  | cons x xs ih =>
    rw [List.findSome?_cons]
    by_cases hx : x = a
    · subst hx
      rw [hfa]
    · rw [hu x (List.mem_cons_self x xs) hx]
      exact ih (List.mem_of_ne_of_mem (fun h => hx h.symm) ha)
        (fun y hy hne => hu y (List.mem_cons_of_mem x hy) hne)

/-- C7: phone normalization is idempotent on canonical forms: for every
already-canonical `+<country code><national number>` string (the exact
output shape of the normalizer, with a genuine country code), running
`parse_phone_number` over the library model returns the same string. -/
theorem parse_phone_number_idempotent (p : ParsedPhone)
    (hcc : natToDigitChars p.country_code ∈ countryCodeTable) :
    parse_phone_number phonenumbersParse (formatPhone p) = some (formatPhone p) := by
  have hfil : (natToDigitChars p.country_code ++ natToDigitChars p.national_number).filter
      Char.isDigit = natToDigitChars p.country_code ++ natToDigitChars p.national_number := by
    refine List.filter_eq_self.mpr ?_
    intro c hc
    cases List.mem_append.mp hc with
    | inl h => exact natToDigitChars_isDigit p.country_code c h
    | inr h => exact natToDigitChars_isDigit p.national_number c h
  have hstep : phonenumbersParse (formatPhone p) =
      countryCodeTable.findSome? (fun c =>
        if c.isPrefixOf (natToDigitChars p.country_code ++ natToDigitChars p.national_number)
            ∧ c ≠ natToDigitChars p.country_code ++ natToDigitChars p.national_number then
          some ⟨natFromDigits c,
            natFromDigits ((natToDigitChars p.country_code
              ++ natToDigitChars p.national_number).drop c.length)⟩
        else none) := by
    have h0 : phonenumbersParse (formatPhone p) =
        countryCodeTable.findSome? (fun c =>
          if c.isPrefixOf ((natToDigitChars p.country_code
                ++ natToDigitChars p.national_number).filter Char.isDigit)
              ∧ c ≠ (natToDigitChars p.country_code
                ++ natToDigitChars p.national_number).filter Char.isDigit then
            some ⟨natFromDigits c,
              natFromDigits (((natToDigitChars p.country_code
                ++ natToDigitChars p.national_number).filter Char.isDigit).drop c.length)⟩
          else none) := rfl
    rw [h0]
    simp only [hfil]
  have hne : natToDigitChars p.country_code
      ≠ natToDigitChars p.country_code ++ natToDigitChars p.national_number := by
    intro h
    exact natToDigitChars_ne_nil p.national_number (List.self_eq_append_right.mp h)
  have hfa : (if (natToDigitChars p.country_code).isPrefixOf
        (natToDigitChars p.country_code ++ natToDigitChars p.national_number)
        ∧ natToDigitChars p.country_code
          ≠ natToDigitChars p.country_code ++ natToDigitChars p.national_number then
      some (⟨natFromDigits (natToDigitChars p.country_code),
        natFromDigits ((natToDigitChars p.country_code
          ++ natToDigitChars p.national_number).drop
            (natToDigitChars p.country_code).length)⟩ : ParsedPhone)
    else none) = some p := by
    rw [if_pos ⟨List.isPrefixOf_iff_prefix.mpr (List.prefix_append _ _), hne⟩]
    rw [List.drop_left, natFromDigits_natToDigitChars, natFromDigits_natToDigitChars]
  have hu : ∀ c ∈ countryCodeTable, c ≠ natToDigitChars p.country_code →
      (if c.isPrefixOf (natToDigitChars p.country_code ++ natToDigitChars p.national_number)
          ∧ c ≠ natToDigitChars p.country_code ++ natToDigitChars p.national_number then
        some (⟨natFromDigits c,
          natFromDigits ((natToDigitChars p.country_code
            ++ natToDigitChars p.national_number).drop c.length)⟩ : ParsedPhone)
      else none) = none := by
    intro c hcmem hcne
    rw [if_neg]
    intro hcond
    have hpre : c <+: natToDigitChars p.country_code ++ natToDigitChars p.national_number :=
      List.isPrefixOf_iff_prefix.mp hcond.1
    have hor := List.prefix_or_prefix_of_prefix hpre
      (List.prefix_append (natToDigitChars p.country_code) (natToDigitChars p.national_number))
    have hsymm : Symmetric (fun a b : List Char => ¬ a <+: b ∧ ¬ b <+: a) :=
      fun a b h => ⟨h.2, h.1⟩
    have hpf := (countryCodeTable_prefixFree.forall hsymm) hcmem hcc hcne
    cases hor with
    | inl h => exact hpf.1 h
    | inr h => exact hpf.2 h
  rw [parse_phone_number, hstep,
    findSome?_eq_of_unique hcc hfa hu]
  rfl

/-- Witness for C7: the canonical string "+15551234" normalizes to itself. -/
theorem parse_phone_number_idempotent_witness :
    natToDigitChars (ParsedPhone.mk 1 5551234).country_code ∈ countryCodeTable
    ∧ formatPhone ⟨1, 5551234⟩ = "+15551234"
    ∧ parse_phone_number phonenumbersParse (formatPhone ⟨1, 5551234⟩)
        = some (formatPhone ⟨1, 5551234⟩) :=
  ⟨by decide, by decide, parse_phone_number_idempotent ⟨1, 5551234⟩ (by decide)⟩

/-! ### Messaging pipeline

The rows loaded from sms.db by `backup_messages` and the structures it
emits.  Python dicts built by `simple_query(..., by="id")` are modelled as
association lookups with last-write-wins semantics (`dictGet`), and the
dict iteration order (first-occurrence key order) by `keysInOrder`. -/

/-- A row of the chat table. -/
structure ChatRow where
  id : Nat
  guid : String
deriving DecidableEq

/-- A row of the handle table. -/
structure HandleRow where
  id : Nat
  contact : String
  country : Option String
  service : Option String
deriving DecidableEq

/-- A row of chat_handle_join. -/
structure ChatHandleRow where
  chat_id : Nat
  handle_id : Nat
deriving DecidableEq

/-- A row of the message table; handle_id is NULL for some messages. -/
structure MessageRow where
  id : Nat
  guid : String
  date : Int
  handle_id : Option Nat
  text : Option String
  reply_to_guid : Option String
deriving DecidableEq

/-- A row of chat_message_join. -/
structure ChatMessageRow where
  chat_id : Nat
  message_id : Nat
deriving DecidableEq

/-- A row of the attachment table. -/
structure AttachmentRow where
  id : Nat
  guid : String
  date : Int
  filename : Option String
  uti : Option String
  mime_type : Option String
  transfer_name : Option String
  total_bytes : Int
deriving DecidableEq

/-- A row of message_attachment_join. -/
structure MessageAttachmentRow where
  message_id : Nat
  attachment_id : Nat
deriving DecidableEq

/-- The tables of one sms.db, as loaded by the pipeline's queries. -/
structure SmsTables where
  chats : List ChatRow
  handles : List HandleRow
  chat_handles : List ChatHandleRow
  messages : List MessageRow
  chat_messages : List ChatMessageRow
  attachments : List AttachmentRow
  message_attachments : List MessageAttachmentRow
deriving DecidableEq

/-- Lookup in a Python dict built by a by-key comprehension over rows:
the value is the last row carrying that key. -/
def dictGet {α : Type} (key : α → Nat) (rows : List α) (k : Nat) : Option α :=
  rows.reverse.find? (fun r => key r == k)

/-- Key iteration order of such a dict (first occurrence of each key),
with explicit fuel so the definition is structural and kernel-evaluable. -/
def keysInOrderFuel : Nat → List Nat → List Nat
  | _, [] => []
  | 0, _ :: _ => []
  | fuel + 1, k :: ks => k :: keysInOrderFuel fuel (ks.filter (fun x => x != k))

/-- Key iteration order of a dict built from this key list. -/
def keysInOrder (l : List Nat) : List Nat :=
  keysInOrderFuel l.length l

/-- One entry of CONTACTS_LOOKUP: a normalized contact string mapped to
the person's uuid and display name. -/
structure ContactEntry where
  key : String
  uuid : String
  name : String
deriving DecidableEq

/-- CONTACTS_LOOKUP subscript, with Python dict overwrite semantics. -/
def contactsLookupGet (t : List ContactEntry) (k : String) : Option (String × String) :=
  (t.reverse.find? (fun e => e.key == k)).map (fun e => (e.uuid, e.name))

/-- The contact-annotation step shared by both annotation passes of
`backup_messages` (source lines 492-501 and 522-531): the contact string
is replaced by its canonical phone form when it parses, then looked up in
CONTACTS_LOOKUP; an absent entry yields no annotation (a warning only). -/
def resolveContact (lib : String → Option ParsedPhone) (t : List ContactEntry)
    (contact : String) : Option (String × String) :=
  contactsLookupGet t (match parse_phone_number lib contact with
    | some phone => phone
    | none => contact)

/-- A chat member as emitted: the handle row plus the resolved person
identity when the contact is known. -/
structure OutMember where
  handle : HandleRow
  resolved : Option (String × String)
deriving DecidableEq

/-- A message as emitted: the row, its sender annotation (absent when the
handle id is missing from the handle table or the contact unknown), and
its joined attachments. -/
structure OutMessage where
  msg : MessageRow
  sender : Option (String × String)
  attachments : List AttachmentRow
deriving DecidableEq

/-- A chat as emitted to chats.json (members joined, messages not yet). -/
structure OutChatMembers where
  chat : ChatRow
  members : List OutMember
deriving DecidableEq

/-- A chat as emitted to chats-full.json. -/
structure OutChat where
  chat : ChatRow
  members : List OutMember
  messages : List OutMessage
deriving DecidableEq

/-- The JSON documents emitted by `backup_messages`, in emission order. -/
inductive OutFile where
  | chatsJson (chats : List OutChatMembers)
  | chatsFullJson (chats : List OutChat)
  | messageData (chatId : Nat) (msgs : List OutMessage)
deriving DecidableEq

/-- The observable result of the messaging pipeline: the documents emitted
before any uncaught exception, and the exception if one was raised. -/
structure PipeResult where
  outputs : List OutFile
  error : Option PyError
deriving DecidableEq

/-- The common shape of the three join-table loops of `backup_messages`:
each row subscripts two dicts in order (an absent key raises KeyError,
aborting the loop) and contributes one accumulated element. -/
def joinLoop {ρ α β γ : Type} (get1 : ρ → Option α) (get2 : ρ → Option β)
    (emit : ρ → α → β → γ) : List ρ → Except PyError (List γ)
  | [] => Except.ok []
  | j :: rest =>
    match get1 j with
    | none => Except.error PyError.keyError
    | some a =>
      match get2 j with
      | none => Except.error PyError.keyError
      | some b => (joinLoop get1 get2 emit rest).map (fun l => emit j a b :: l)

/-- The chat_handle_join loop (source lines 489-503): subscripts the
handles dict, then the chats dict, and appends the contact-annotated
handle to the chat's member list. -/
def chatHandlesLoop (lib : String → Option ParsedPhone) (t : List ContactEntry)
    (chats : List ChatRow) (handles : List HandleRow) (rows : List ChatHandleRow) :
    Except PyError (List (Nat × OutMember)) :=
  joinLoop (fun j => dictGet HandleRow.id handles j.handle_id)
    (fun j => dictGet ChatRow.id chats j.chat_id)
    (fun j handle _ => (j.chat_id, ⟨handle, resolveContact lib t handle.contact⟩)) rows

/-- The chat_message_join loop (source lines 533-536): subscripts the
chats dict, then the messages dict, and appends the message to the chat. -/
def chatMessagesLoop (chats : List ChatRow) (messages : List MessageRow)
    (rows : List ChatMessageRow) : Except PyError (List (Nat × Nat)) :=
  joinLoop (fun j => dictGet ChatRow.id chats j.chat_id)
    (fun j => dictGet MessageRow.id messages j.message_id)
    (fun j _ _ => (j.chat_id, j.message_id)) rows

/-- The message_attachment_join loop (source lines 547-550): subscripts
the messages dict, then the attachments dict, and appends the attachment
to the message. -/
def messageAttachmentsLoop (messages : List MessageRow) (attachments : List AttachmentRow)
    (rows : List MessageAttachmentRow) : Except PyError (List (Nat × AttachmentRow)) :=
  joinLoop (fun j => dictGet MessageRow.id messages j.message_id)
    (fun j => dictGet AttachmentRow.id attachments j.attachment_id)
    (fun j _ att => (j.message_id, att)) rows

/-- The sender-annotation pass over the messages dict (source lines
516-531): a message whose handle id is NULL or absent from the handles
dict is skipped with no annotation and no error; otherwise the handle's
contact is normalized and resolved. -/
def messageSender (lib : String → Option ParsedPhone) (t : List ContactEntry)
    (handles : List HandleRow) (m : MessageRow) : Option (String × String) :=
  match m.handle_id with
  | none => none
  | some hid =>
    match dictGet HandleRow.id handles hid with
    | none => none
    | some handle => resolveContact lib t handle.contact

/-- The final denormalized form of the message stored under key `mid` in
the messages dict: sender annotation plus the attachments appended to it
by the message_attachment_join loop. -/
def buildOutMessage (lib : String → Option ParsedPhone) (t : List ContactEntry)
    (handles : List HandleRow) (maPairs : List (Nat × AttachmentRow))
    (mid : Nat) (m : MessageRow) : OutMessage :=
  ⟨m, messageSender lib t handles m,
    (maPairs.filter (fun q => q.1 == mid)).map (fun q => q.2)⟩

/-- The chats.json view: every chat in dict order with its member list. -/
def chatsWithMembers (chats : List ChatRow) (memberPairs : List (Nat × OutMember)) :
    List OutChatMembers :=
  (keysInOrder (chats.map ChatRow.id)).filterMap (fun k =>
    (dictGet ChatRow.id chats k).map (fun c =>
      ⟨c, (memberPairs.filter (fun q => q.1 == k)).map (fun q => q.2)⟩))

/-- The chats-full.json view: every chat in dict order with its member
list and the messages joined to it by chat_message_join, each in its final
denormalized form. -/
def chatsFull (lib : String → Option ParsedPhone) (t : List ContactEntry) (db : SmsTables)
    (memberPairs : List (Nat × OutMember)) (cmPairs : List (Nat × Nat))
    (maPairs : List (Nat × AttachmentRow)) : List OutChat :=
  (keysInOrder (db.chats.map ChatRow.id)).filterMap (fun k =>
    (dictGet ChatRow.id db.chats k).map (fun c =>
      ⟨c, (memberPairs.filter (fun q => q.1 == k)).map (fun q => q.2),
        (cmPairs.filter (fun q => q.1 == k)).filterMap (fun q =>
          (dictGet MessageRow.id db.messages q.2).map
            (buildOutMessage lib t db.handles maPairs q.2))⟩))

/-- The per-chat message-data documents (source lines 554-558): one per
chat whose "messages" key exists, i.e. that received at least one joined
message; for the others the source catches the KeyError and skips. -/
def messageDataFiles (ocs : List OutChat) : List OutFile :=
  ocs.filterMap (fun oc =>
    if oc.messages.isEmpty then none else some (OutFile.messageData oc.chat.id oc.messages))

/-- Embeds `backup_messages` (source lines 472-558), given the already
opened sms.db tables (the `backup.file(...).open_db()` call at line 473
precedes everything modelled here and emits no document): the guard on an
empty CONTACTS_LOOKUP raises ContactsNotDefinedException before anything
is emitted; then the chat_handle_join loop runs and chats.json is
emitted; then the chat_message_join and message_attachment_join loops
run; finally chats-full.json and the per-chat documents are emitted. -/
def backup_messages (lib : String → Option ParsedPhone) (contactsLookup : List ContactEntry)
    (db : SmsTables) : PipeResult :=
  if contactsLookup.isEmpty then ⟨[], some PyError.contactsNotDefined⟩
  else
    match chatHandlesLoop lib contactsLookup db.chats db.handles db.chat_handles with
    | Except.error e => ⟨[], some e⟩
    | Except.ok memberPairs =>
      match chatMessagesLoop db.chats db.messages db.chat_messages with
      | Except.error e =>
        ⟨[OutFile.chatsJson (chatsWithMembers db.chats memberPairs)], some e⟩
      | Except.ok cmPairs =>
        match messageAttachmentsLoop db.messages db.attachments db.message_attachments with
        | Except.error e =>
          ⟨[OutFile.chatsJson (chatsWithMembers db.chats memberPairs)], some e⟩
        | Except.ok maPairs =>
          ⟨[OutFile.chatsJson (chatsWithMembers db.chats memberPairs),
            OutFile.chatsFullJson
              (chatsFull lib contactsLookup db memberPairs cmPairs maPairs)]
            ++ messageDataFiles (chatsFull lib contactsLookup db memberPairs cmPairs maPairs),
           none⟩

/-! ### Lemmas about the join loops -/

theorem joinLoop_error_eq {ρ α β γ : Type} {get1 : ρ → Option α} {get2 : ρ → Option β}
    {emit : ρ → α → β → γ} {l : List ρ} {e : PyError}
    (h : joinLoop get1 get2 emit l = Except.error e) : e = PyError.keyError := by
  induction l with
  | nil => exact absurd h (by simp [joinLoop])
  | cons j rest ih =>
    simp only [joinLoop] at h
    cases h1 : get1 j with
    | none =>
      rw [h1] at h
      have h' : (Except.error PyError.keyError : Except PyError (List γ)) = Except.error e := h
      injection h' with he
      exact he.symm
    | some a =>
      rw [h1] at h
      cases h2 : get2 j with
      | none =>
        rw [h2] at h
        have h' : (Except.error PyError.keyError : Except PyError (List γ)) = Except.error e := h
        injection h' with he
        exact he.symm
      | some b =>
        rw [h2] at h
        cases hr : joinLoop get1 get2 emit rest with
        | error e' =>
          rw [hr] at h
          have h' : (Except.error e' : Except PyError (List γ)) = Except.error e := h
          injection h' with he
          exact ih (by rw [hr, he])
        | ok out =>
          rw [hr] at h
          exact absurd h (by simp [Except.map])

theorem joinLoop_ok_forall {ρ α β γ : Type} {get1 : ρ → Option α} {get2 : ρ → Option β}
    {emit : ρ → α → β → γ} {l : List ρ} {out : List γ}
    (h : joinLoop get1 get2 emit l = Except.ok out) :
    ∀ j ∈ l, (get1 j).isSome ∧ (get2 j).isSome := by
  induction l generalizing out with
  | nil => intro j hj; cases hj
  | cons j0 rest ih =>
    simp only [joinLoop] at h
    cases h1 : get1 j0 with
    | none =>
      rw [h1] at h
      exact absurd h (by simp)
    | some a =>
      rw [h1] at h
      cases h2 : get2 j0 with
      | none =>
        rw [h2] at h
        exact absurd h (by simp)
      | some b =>
        rw [h2] at h
        cases hr : joinLoop get1 get2 emit rest with
        | error e' =>
          rw [hr] at h
          exact absurd h (by simp [Except.map])
        | ok out' =>
          intro j hj
          cases hj with
          | head => exact ⟨by rw [h1]; rfl, by rw [h2]; rfl⟩
          | tail _ htail => exact ih hr j htail

theorem joinLoop_ok_of_forall {ρ α β γ : Type} {get1 : ρ → Option α} {get2 : ρ → Option β}
    {emit : ρ → α → β → γ} {l : List ρ}
    (h : ∀ j ∈ l, (get1 j).isSome ∧ (get2 j).isSome) :
    ∃ out, joinLoop get1 get2 emit l = Except.ok out := by
  induction l with
  | nil => exact ⟨[], rfl⟩
  | cons j rest ih =>
    obtain ⟨a, ha⟩ := Option.isSome_iff_exists.mp (h j (List.mem_cons_self j rest)).1
    obtain ⟨b, hb⟩ := Option.isSome_iff_exists.mp (h j (List.mem_cons_self j rest)).2
    obtain ⟨out, hout⟩ := ih (fun x hx => h x (List.mem_cons_of_mem j hx))
    refine ⟨emit j a b :: out, ?_⟩
    simp only [joinLoop]
    rw [ha, hb, hout]
    rfl

theorem joinLoop_ok_map {ρ α β γ : Type} {get1 : ρ → Option α} {get2 : ρ → Option β}
    {emit : ρ → α → β → γ} {f : ρ → γ} {l : List ρ} {out : List γ}
    (hemit : ∀ j a b, emit j a b = f j)
    (h : joinLoop get1 get2 emit l = Except.ok out) : out = l.map f := by
  induction l generalizing out with
  | nil =>
    have h' : (Except.ok [] : Except PyError (List γ)) = Except.ok out := h
    injection h' with he
    rw [← he]
    rfl
  | cons j rest ih =>
    simp only [joinLoop] at h
    cases h1 : get1 j with
    | none =>
      rw [h1] at h
      exact absurd h (by simp)
    | some a =>
      rw [h1] at h
      cases h2 : get2 j with
      | none =>
        rw [h2] at h
        exact absurd h (by simp)
      | some b =>
        rw [h2] at h
        cases hr : joinLoop get1 get2 emit rest with
        | error e' =>
          rw [hr] at h
          exact absurd h (by simp [Except.map])
        | ok out' =>
          rw [hr] at h
          have h' : (Except.ok (emit j a b :: out') : Except PyError (List γ)) = Except.ok out := h
          injection h' with he
          rw [← he, List.map_cons, hemit j a b, ih hr]

/-- The empty sms.db used in concrete scenarios. -/
def emptySms : SmsTables := ⟨[], [], [], [], [], [], []⟩

/-- C8: invoking the messaging pipeline while the contact lookup table is
empty fails with ContactsNotDefinedException before emitting any document,
and the dispatch loop does not catch that exception class, so it is fatal
to the run rather than recoverable. -/
theorem backup_messages_contacts_guard (lib : String → Option ParsedPhone)
    (t : List ContactEntry) (db : SmsTables) (h : t = []) :
    backup_messages lib t db = ⟨[], some PyError.contactsNotDefined⟩
    ∧ caughtAtDispatch PyError.contactsNotDefined = false := by
  subst h
  exact ⟨rfl, rfl⟩

/-- Witness for C8: a concrete empty lookup table. -/
theorem backup_messages_contacts_guard_witness :
    backup_messages phonenumbersParse [] emptySms = ⟨[], some PyError.contactsNotDefined⟩
    ∧ caughtAtDispatch PyError.contactsNotDefined = false :=
  backup_messages_contacts_guard phonenumbersParse [] emptySms rfl

/-- C9: a chat_message_join row whose message id is absent from the
messages dict, a chat_handle_join or chat_message_join row whose chat id
is absent from the chats dict, or a message_attachment_join row whose
attachment id is absent from the attachments dict, makes the pipeline end
with a KeyError that the dispatch loop does not catch; by contrast, when
every join row resolves, the pipeline succeeds with no constraint at all
on message handle ids — a missing handle is tolerated. -/
theorem backup_messages_dangling_joins (lib : String → Option ParsedPhone)
    (t : List ContactEntry) (db : SmsTables) (hne : t ≠ []) :
    (((∃ j ∈ db.chat_messages, dictGet MessageRow.id db.messages j.message_id = none)
      ∨ (∃ j ∈ db.chat_handles, dictGet ChatRow.id db.chats j.chat_id = none)
      ∨ (∃ j ∈ db.chat_messages, dictGet ChatRow.id db.chats j.chat_id = none)
      ∨ (∃ j ∈ db.message_attachments,
          dictGet AttachmentRow.id db.attachments j.attachment_id = none)) →
      (backup_messages lib t db).error = some PyError.keyError)
    ∧ ((∀ j ∈ db.chat_handles, (dictGet HandleRow.id db.handles j.handle_id).isSome
          ∧ (dictGet ChatRow.id db.chats j.chat_id).isSome) →
       (∀ j ∈ db.chat_messages, (dictGet ChatRow.id db.chats j.chat_id).isSome
          ∧ (dictGet MessageRow.id db.messages j.message_id).isSome) →
       (∀ j ∈ db.message_attachments, (dictGet MessageRow.id db.messages j.message_id).isSome
          ∧ (dictGet AttachmentRow.id db.attachments j.attachment_id).isSome) →
      (backup_messages lib t db).error = none)
    ∧ caughtAtDispatch PyError.keyError = false := by
  have hE : ¬ (t.isEmpty = true) := by
    cases t with
    | nil => exact absurd rfl hne
    | cons a l => simp
  refine ⟨?_, ?_, rfl⟩
  · intro hd
    unfold backup_messages chatHandlesLoop chatMessagesLoop messageAttachmentsLoop
    rw [if_neg hE]
    cases hch : joinLoop (fun j => dictGet HandleRow.id db.handles j.handle_id)
        (fun j => dictGet ChatRow.id db.chats j.chat_id)
        (fun j handle _ => (j.chat_id,
          (⟨handle, resolveContact lib t handle.contact⟩ : OutMember))) db.chat_handles with
    | error e =>
      show some e = some PyError.keyError
      rw [joinLoop_error_eq hch]
    | ok mp =>
      cases hcm : joinLoop (fun j => dictGet ChatRow.id db.chats j.chat_id)
          (fun j => dictGet MessageRow.id db.messages j.message_id)
          (fun j _ _ => (j.chat_id, j.message_id)) db.chat_messages with
      | error e =>
        show some e = some PyError.keyError
        rw [joinLoop_error_eq hcm]
      | ok cm =>
        cases hma : joinLoop (fun j => dictGet MessageRow.id db.messages j.message_id)
            (fun j => dictGet AttachmentRow.id db.attachments j.attachment_id)
            (fun j _ att => (j.message_id, att)) db.message_attachments with
        | error e =>
          show some e = some PyError.keyError
          rw [joinLoop_error_eq hma]
        | ok ma =>
          exfalso
          rcases hd with ⟨j, hj, hnone⟩ | ⟨j, hj, hnone⟩ | ⟨j, hj, hnone⟩ | ⟨j, hj, hnone⟩
          · have := (joinLoop_ok_forall hcm j hj).2
            rw [hnone] at this
            exact absurd this (by simp)
          · have := (joinLoop_ok_forall hch j hj).2
            rw [hnone] at this
            exact absurd this (by simp)
          · have := (joinLoop_ok_forall hcm j hj).1
            rw [hnone] at this
            exact absurd this (by simp)
          · have := (joinLoop_ok_forall hma j hj).2
            rw [hnone] at this
            exact absurd this (by simp)
  · intro h1 h2 h3
    unfold backup_messages chatHandlesLoop chatMessagesLoop messageAttachmentsLoop
    rw [if_neg hE]
    obtain ⟨mp, hmp⟩ := @joinLoop_ok_of_forall ChatHandleRow HandleRow ChatRow (Nat × OutMember)
      (fun j => dictGet HandleRow.id db.handles j.handle_id)
      (fun j => dictGet ChatRow.id db.chats j.chat_id)
      (fun j handle _ => (j.chat_id, ⟨handle, resolveContact lib t handle.contact⟩))
      db.chat_handles h1
    obtain ⟨cm, hcm⟩ := @joinLoop_ok_of_forall ChatMessageRow ChatRow MessageRow (Nat × Nat)
      (fun j => dictGet ChatRow.id db.chats j.chat_id)
      (fun j => dictGet MessageRow.id db.messages j.message_id)
      (fun j _ _ => (j.chat_id, j.message_id))
      db.chat_messages h2
    obtain ⟨ma, hma⟩ := @joinLoop_ok_of_forall MessageAttachmentRow MessageRow AttachmentRow
      (Nat × AttachmentRow)
      (fun j => dictGet MessageRow.id db.messages j.message_id)
      (fun j => dictGet AttachmentRow.id db.attachments j.attachment_id)
      (fun j _ att => (j.message_id, att))
      db.message_attachments h3
    rw [hmp, hcm, hma]

/-- The sms.db of the C9 witness scenario: one chat, and one
chat_message_join row whose message id 99 is absent from the (empty)
message table. -/
def danglingSms : SmsTables := ⟨[⟨1, "g"⟩], [], [], [], [⟨1, 99⟩], [], []⟩

/-- Witness for C9: the dangling chat_message_join row ends the pipeline
with a KeyError. -/
theorem backup_messages_dangling_joins_witness :
    (backup_messages phonenumbersParse [⟨"k", "u", "n"⟩] danglingSms).error
      = some PyError.keyError :=
  (backup_messages_dangling_joins phonenumbersParse [⟨"k", "u", "n"⟩] danglingSms
      (by decide)).1
    (Or.inl ⟨⟨1, 99⟩, by decide, rfl⟩)

/-! ### Lemmas about dict order, dict lookup, and the success shape -/

theorem keysInOrderFuel_mem (fuel : Nat) :
    ∀ l : List Nat, l.length ≤ fuel → ∀ k, k ∈ keysInOrderFuel fuel l ↔ k ∈ l := by
  induction fuel with
  | zero =>
    intro l hl k
    cases l with
    | nil => exact Iff.rfl
    | cons a t => simp at hl
  | succ fuel ih =>
    intro l hl k
    cases l with
    | nil => exact Iff.rfl
    | cons k0 ks =>
      have hlen : (ks.filter (fun x => x != k0)).length ≤ fuel := by
        have h1 := List.length_filter_le (fun x => x != k0) ks
        simp only [List.length_cons] at hl
        omega
      have hrec := ih (ks.filter (fun x => x != k0)) hlen k
      show k ∈ k0 :: keysInOrderFuel fuel (ks.filter (fun x => x != k0)) ↔ k ∈ k0 :: ks
      by_cases hk : k = k0
      · subst hk
        simp
      · simp only [List.mem_cons, hk, false_or, hrec, List.mem_filter, bne_iff_ne,
          ne_eq, hk, not_false_eq_true, and_true]

theorem keysInOrder_mem (l : List Nat) (k : Nat) : k ∈ keysInOrder l ↔ k ∈ l :=
  keysInOrderFuel_mem l.length l (le_refl _) k

theorem dictGet_some {α : Type} {key : α → Nat} {rows : List α} {k : Nat} {r : α}
    (h : dictGet key rows k = some r) : r ∈ rows ∧ key r = k := by
  unfold dictGet at h
  have h1 := List.find?_some h
  have h2 := List.mem_of_find?_eq_some h
  exact ⟨List.mem_reverse.mp h2, eq_of_beq h1⟩

theorem messageDataFiles_shape {ocs : List OutChat} {x : OutFile}
    (h : x ∈ messageDataFiles ocs) : ∃ k ms, x = OutFile.messageData k ms := by
  unfold messageDataFiles at h
  obtain ⟨oc, hmem, hoc⟩ := List.mem_filterMap.mp h
  by_cases he : oc.messages.isEmpty
  · rw [if_pos he] at hoc
    cases hoc
  · rw [if_neg he] at hoc
    injection hoc with hx
    exact ⟨oc.chat.id, oc.messages, hx.symm⟩

theorem backup_messages_ok_shape {lib : String → Option ParsedPhone} {t : List ContactEntry}
    {db : SmsTables} {res : PipeResult}
    (hres : backup_messages lib t db = res) (hok : res.error = none) :
    ∃ mp cm ma,
      chatHandlesLoop lib t db.chats db.handles db.chat_handles = Except.ok mp
      ∧ chatMessagesLoop db.chats db.messages db.chat_messages = Except.ok cm
      ∧ messageAttachmentsLoop db.messages db.attachments db.message_attachments = Except.ok ma
      ∧ res.outputs = [OutFile.chatsJson (chatsWithMembers db.chats mp),
          OutFile.chatsFullJson (chatsFull lib t db mp cm ma)]
          ++ messageDataFiles (chatsFull lib t db mp cm ma) := by
  unfold backup_messages at hres
  by_cases hE : t.isEmpty = true
  · rw [if_pos hE] at hres
    rw [← hres] at hok
    cases hok
  · rw [if_neg hE] at hres
    cases hch : chatHandlesLoop lib t db.chats db.handles db.chat_handles with
    | error e =>
      rw [hch] at hres
      rw [← hres] at hok
      cases hok
    | ok mp =>
      rw [hch] at hres
      cases hcm : chatMessagesLoop db.chats db.messages db.chat_messages with
      | error e =>
        rw [hcm] at hres
        rw [← hres] at hok
        cases hok
      | ok cm =>
        rw [hcm] at hres
        cases hma : messageAttachmentsLoop db.messages db.attachments db.message_attachments with
        | error e =>
          rw [hma] at hres
          rw [← hres] at hok
          cases hok
        | ok ma =>
          rw [hma] at hres
          exact ⟨mp, cm, ma, rfl, rfl, rfl, by rw [← hres]⟩

/-- C1 (amended): a message whose handle id is absent from the handle
table is skipped only during sender annotation: it is emitted with no
sender identity, but it still appears, under every chat joined to it by
chat_message_join, in the emitted chat structures. -/
theorem backup_messages_missing_handle_kept (lib : String → Option ParsedPhone)
    (t : List ContactEntry) (db : SmsTables) (res : PipeResult) (ocs : List OutChat)
    (m : MessageRow) (hid : Nat) (j : ChatMessageRow)
    (hres : backup_messages lib t db = res) (hok : res.error = none)
    (hout : OutFile.chatsFullJson ocs ∈ res.outputs)
    (hm : dictGet MessageRow.id db.messages j.message_id = some m)
    (hhid : m.handle_id = some hid)
    (hdangling : dictGet HandleRow.id db.handles hid = none)
    (hj : j ∈ db.chat_messages) :
    ∃ oc, oc ∈ ocs ∧ oc.chat.id = j.chat_id
      ∧ ∃ om, om ∈ oc.messages ∧ om.msg = m ∧ om.sender = none := by
  obtain ⟨mp, cm, ma, hch, hcm, hma, houts⟩ := backup_messages_ok_shape hres hok
  have hocs : ocs = chatsFull lib t db mp cm ma := by
    rw [houts] at hout
    simp only [List.cons_append, List.nil_append, List.mem_cons] at hout
    rcases hout with h1 | h2 | h3
    · cases h1
    · exact OutFile.chatsFullJson.inj h2
    · obtain ⟨k, ms, hkm⟩ := messageDataFiles_shape h3
      cases hkm
  have hchat : (dictGet ChatRow.id db.chats j.chat_id).isSome :=
    (joinLoop_ok_forall hcm j hj).1
  obtain ⟨c, hc⟩ := Option.isSome_iff_exists.mp hchat
  have hcprops := dictGet_some hc
  have hkey : j.chat_id ∈ keysInOrder (db.chats.map ChatRow.id) :=
    (keysInOrder_mem _ _).mpr (List.mem_map.mpr ⟨c, hcprops.1, hcprops.2⟩)
  have hcmEq : cm = db.chat_messages.map (fun q => (q.chat_id, q.message_id)) :=
    joinLoop_ok_map (fun _ _ _ => rfl) hcm
  have hpair : ((j.chat_id, j.message_id) : Nat × Nat) ∈ cm := by
    rw [hcmEq]
    exact List.mem_map.mpr ⟨j, hj, rfl⟩
  have hfilt : ((j.chat_id, j.message_id) : Nat × Nat)
      ∈ cm.filter (fun q => q.1 == j.chat_id) :=
    List.mem_filter.mpr ⟨hpair, by simp⟩
  have hommem : buildOutMessage lib t db.handles ma j.message_id m
      ∈ (cm.filter (fun q => q.1 == j.chat_id)).filterMap (fun q =>
          (dictGet MessageRow.id db.messages q.2).map
            (buildOutMessage lib t db.handles ma q.2)) :=
    List.mem_filterMap.mpr ⟨(j.chat_id, j.message_id), hfilt, by rw [hm]; rfl⟩
  have hocmem : (⟨c, (mp.filter (fun q => q.1 == j.chat_id)).map (fun q => q.2),
      (cm.filter (fun q => q.1 == j.chat_id)).filterMap (fun q =>
        (dictGet MessageRow.id db.messages q.2).map
          (buildOutMessage lib t db.handles ma q.2))⟩ : OutChat)
      ∈ chatsFull lib t db mp cm ma := by
    unfold chatsFull
    exact List.mem_filterMap.mpr ⟨j.chat_id, hkey, by rw [hc]; rfl⟩
  have hsender : messageSender lib t db.handles m = none := by
    unfold messageSender
    rw [hhid]
    show (match dictGet HandleRow.id db.handles hid with
      | none => none
      | some handle => resolveContact lib t handle.contact) = none
    rw [hdangling]
  refine ⟨_, by rw [hocs]; exact hocmem, hcprops.2, ?_⟩
  exact ⟨buildOutMessage lib t db.handles ma j.message_id m, hommem, rfl, hsender⟩

/-- The message of the C1 scenario: its handle id 99 is absent from the
(empty) handle table. -/
def c1msg : MessageRow := ⟨10, "mg", 0, some 99, none, none⟩

/-- The sms.db of the C1 scenario: one chat, one message with a dangling
handle id, and a chat_message_join row joining them. -/
def c1sms : SmsTables := ⟨[⟨1, "g"⟩], [], [], [c1msg], [⟨1, 10⟩], [], []⟩

/-- The contact lookup table of the C1 scenario (nonempty, so the
pipeline runs). -/
def c1lookup : List ContactEntry := [⟨"k", "u", "n"⟩]

/-- C1 counterexample: message 10 references handle id 99, which is absent
from the handle table; yet the pipeline succeeds and the message appears
(without sender annotation) under chat 1 in the emitted chats-full
structure — it is not dropped from the output. -/
theorem backup_messages_missing_handle_counterexample :
    dictGet HandleRow.id c1sms.handles 99 = none
    ∧ c1msg.handle_id = some 99
    ∧ (backup_messages phonenumbersParse c1lookup c1sms).error = none
    ∧ OutFile.chatsFullJson [⟨⟨1, "g"⟩, [], [⟨c1msg, none, []⟩]⟩]
        ∈ (backup_messages phonenumbersParse c1lookup c1sms).outputs := by
  refine ⟨rfl, rfl, rfl, ?_⟩
  decide

/-- Witness for C1 (amended), at the concrete C1 scenario. -/
theorem backup_messages_missing_handle_kept_witness :
    ∃ oc, oc ∈ [(⟨⟨1, "g"⟩, [], [⟨c1msg, none, []⟩]⟩ : OutChat)] ∧ oc.chat.id = 1
      ∧ ∃ om, om ∈ oc.messages ∧ om.msg = c1msg ∧ om.sender = none :=
  backup_messages_missing_handle_kept phonenumbersParse c1lookup c1sms
    (backup_messages phonenumbersParse c1lookup c1sms) [⟨⟨1, "g"⟩, [], [⟨c1msg, none, []⟩]⟩]
    c1msg 99 ⟨1, 10⟩ rfl rfl (by decide) rfl rfl rfl (by decide)

end IosExtract
